import Mathlib

/-!
Shallow embedding of the core logic of `src/app.py` (a Streamlit front end
around the yt-dlp download tool): the option mapper (`build_video_format`,
the quality-label table and the yt-dlp option dictionaries), the progress
hook (`make_progress_hook`), and the start handler.

Modelling conventions:
* Byte counts, ETAs and speeds are modelled as `Nat` (they are non-negative
  counts in the source events); the float division `downloaded / total`
  is modelled exactly in `ℚ`.
* A Python dict entry that may be absent or `None` is an `Option`.
* A hook invocation that raises an uncaught exception is modelled as `none`;
  a normal return is `some effects`, where the effects list records the UI
  sink calls that were performed, in order.
* Python `str.lower`, `str` slicing and `str.split` are modelled at the
  character-list level (`pyLower`, `pyTake`, `splitChar`), which matches
  the source behaviour on the ASCII labels and code-point slicing used here.
-/

namespace YtDl

/-- One yt-dlp progress callback dictionary `d`, restricted to the keys the
hook reads.  `status` is `d.get("status")`, and so on for the other keys. -/
structure ProgressEvent where
  status : Option String
  total_bytes : Option Nat
  total_bytes_estimate : Option Nat
  downloaded_bytes : Option Nat
  speed : Option Nat
  eta : Option Nat
  filename : Option String
  deriving DecidableEq, Repr

/-- Whether each of the two bound Streamlit widgets raises when invoked
(for example because the UI context has gone away): `barFails` stands for
`progress_bar.progress` raising, `statusFails` for the status placeholder
(`status_placeholder.markdown` / `status_placeholder.error`) raising. -/
structure Sinks where
  barFails : Bool
  statusFails : Bool
  deriving DecidableEq, Repr

/-- A UI side effect performed by the hook: a fractional progress-bar
update, a markdown status line, or an error status. -/
inductive Effect where
  | barProgress (q : ℚ)
  | statusMarkdown (s : String)
  | statusError (s : String)
  deriving DecidableEq, Repr

/-- Python `str.lower` on one character, for the ASCII range (the only
range the quality labels use). -/
def lowerChar (c : Char) : Char :=
  if 'A' ≤ c ∧ c ≤ 'Z' then Char.ofNat (c.toNat + 32) else c

/-- Python `str.lower`, modelled character by character. -/
def pyLower (s : String) : String := String.mk (s.data.map lowerChar)

/-- Python slice `s[:n]`, which slices by code points. -/
def pyTake (s : String) (n : Nat) : String := String.mk (s.data.take n)

/-- Prepends a character to the first piece of a split result. -/
def consFirst (c : Char) : List (List Char) → List (List Char)
  | [] => [[c]]
  | h :: t => (c :: h) :: t

/-- Python `str.split(sep)` for a one-character separator, on the
character list: used to read off the alternatives of a fallback chain. -/
def splitChar (sep : Char) : List Char → List (List Char)
  | [] => [[]]
  | c :: cs =>
      if c = sep then [] :: splitChar sep cs else consFirst c (splitChar sep cs)

/-- The alternatives of a fallback-chain format selector, split at the `/`
separators yt-dlp uses. -/
def alternatives (s : String) : List String := (splitChar '/' s.data).map String.mk

/-- `build_video_format(height)`: the fallback-chain format selector built
from an optional height ceiling (f-string interpolation becomes `++`). -/
def build_video_format : Option Nat → String
  | none =>
      "bestvideo[ext=mp4]+bestaudio[ext=m4a]/" ++
      "best[ext=mp4]/" ++
      "bestvideo+bestaudio/" ++
      "best"
  | some height =>
      "bestvideo[ext=mp4][height<=" ++ toString height ++ "]+bestaudio[ext=m4a]/" ++
      "best[ext=mp4][height<=" ++ toString height ++ "]/" ++
      "bestvideo[height<=" ++ toString height ++ "]+bestaudio/" ++
      "best[height<=" ++ toString height ++ "]"

/-- The `heights` dict of `download_video_streamlit`. -/
def heights : List (String × Option Nat) :=
  [("best", none), ("2160p", some 2160), ("1440p", some 1440),
   ("1080p", some 1080), ("720p", some 720), ("480p", some 480),
   ("360p", some 360)]

/-- `heights.get(label, None)`: dict lookup with default `None`. -/
def heightsGet (label : String) : Option Nat :=
  (heights.lookup label).getD none

/-- `heights.get(quality_label.lower(), None)`: the height ceiling the
option mapper derives from a user-facing quality label. -/
def heightFor (quality_label : String) : Option Nat :=
  heightsGet (pyLower quality_label)

/-- The format selector `download_video_streamlit` puts into `ydl_opts`. -/
def videoFormatFor (quality_label : String) : String :=
  build_video_format (heightFor quality_label)

/-- The fraction computed in the downloading branch of the hook:
`min(1.0, downloaded / total)`, with the float division modelled in `ℚ`. -/
def fractionOf (downloaded total : Nat) : ℚ :=
  min 1 ((downloaded : ℚ) / (total : ℚ))

/-- `d.get("total_bytes") or d.get("total_bytes_estimate")`: the first
operand wins unless it is falsy (`None` or `0`). -/
def effectiveTotal (d : ProgressEvent) : Option Nat :=
  match d.total_bytes with
  | some n => if n = 0 then d.total_bytes_estimate else some n
  | none => d.total_bytes_estimate

/-- Python `int()` on a rational: truncation toward zero. -/
def pyInt (q : ℚ) : ℤ := if 0 ≤ q then ⌊q⌋ else -⌊-q⌋

/-- Rendering of an optional integer inside an f-string: `None` prints as
the four characters `None`. -/
def optNatStr : Option Nat → String
  | none => "None"
  | some n => toString n

/-- The `{speed or 'N/A'}` fragment: a missing or zero speed renders as
`N/A`. -/
def speedStr : Option Nat → String
  | none => "N/A"
  | some s => if s = 0 then "N/A" else toString s

/-- The status line of the downloading branch when the total is known. -/
def downloadingLine (d : ProgressEvent) (progress : ℚ) : String :=
  "**Downloading**: " ++ pyTake (d.filename.getD "") 80 ++ "  " ++
  "Progress: **" ++ toString (pyInt (progress * 100)) ++ "%** — ETA: **" ++
  optNatStr d.eta ++ "s** — Speed: **" ++ speedStr d.speed ++ " B/s**"

/-- The byte-count-only status line of the downloading branch when the
total is unknown. -/
def byteCountLine (d : ProgressEvent) : String :=
  "**Downloading**: " ++ d.filename.getD "" ++ " — " ++
  toString (d.downloaded_bytes.getD 0) ++ " bytes"

/-- The status line of the finished branch. -/
def finishedLine : String :=
  "**Download finished — now post-processing (merging/converting)...)**"

/-- The message of the error branch. -/
def errorMessage : String := "yt-dlp reported an error"

/-- The hook returned by `make_progress_hook`, as a function of the sink
behaviour and one progress event.  `none` models an uncaught exception
escaping the hook.  Only the `progress_bar.progress` calls are wrapped in
`try/except` in the source; the status placeholder calls are not. -/
def hook (sinks : Sinks) (d : ProgressEvent) : Option (List Effect) :=
  if d.status = some "downloading" then
    match effectiveTotal d with
    | some t =>
        if 0 < t then
          if sinks.statusFails then none
          else some ((if sinks.barFails then []
                      else [Effect.barProgress (fractionOf (d.downloaded_bytes.getD 0) t)]) ++
                     [Effect.statusMarkdown
                        (downloadingLine d (fractionOf (d.downloaded_bytes.getD 0) t))])
        else if sinks.statusFails then none
        else some [Effect.statusMarkdown (byteCountLine d)]
    | none =>
        if sinks.statusFails then none
        else some [Effect.statusMarkdown (byteCountLine d)]
  else if d.status = some "finished" then
    if sinks.statusFails then none
    else some ((if sinks.barFails then [] else [Effect.barProgress 1]) ++
               [Effect.statusMarkdown finishedLine])
  else if d.status = some "error" then
    if sinks.statusFails then none
    else some [Effect.statusError errorMessage]
  else some []

/-- One post-processor entry of the yt-dlp options dict. -/
structure Postprocessor where
  key : String
  preferredcodec : String
  preferredquality : String
  deriving DecidableEq, Repr

/-- The yt-dlp options dict fields the two download functions populate.
The attached progress hook is modelled separately by `hook`. -/
structure YdlOpts where
  outtmpl : String
  format : String
  merge_output_format : Option String
  noplaylist : Bool
  postprocessors : List Postprocessor
  quiet : Bool
  no_warnings : Bool
  deriving DecidableEq, Repr

/-- The output template `Path(save_path) / "%(title).200B [%(id)s].%(ext)s"`,
with the path join written as a separator. -/
def outputTemplate (save_path : String) : String :=
  save_path ++ "/" ++ "%(title).200B [%(id)s].%(ext)s"

/-- The `ydl_opts` dict built by `download_video_streamlit`. -/
def video_ydl_opts (quality_label save_path : String) : YdlOpts :=
  { outtmpl := outputTemplate save_path
    format := videoFormatFor quality_label
    merge_output_format := some "mp4"
    noplaylist := true
    postprocessors := []
    quiet := true
    no_warnings := true }

/-- The `ydl_opts` dict built by `download_audio_streamlit`. -/
def audio_ydl_opts (codec : String) (bitrate_kbps : Nat) (save_path : String) : YdlOpts :=
  { outtmpl := outputTemplate save_path
    format := "bestaudio/best"
    merge_output_format := none
    noplaylist := true
    postprocessors := [⟨"FFmpegExtractAudio", codec, toString bitrate_kbps⟩]
    quiet := true
    no_warnings := true }

/-- Outcome of the start-button handler: either the empty-URL error shown
to the user, or an invocation of the external tool with the built options. -/
inductive StartOutcome where
  | emptyUrlError (message : String)
  | invokeVideo (url : String) (opts : YdlOpts)
  | invokeAudio (url : String) (opts : YdlOpts)
  deriving Repr

/-- The start-button handler: `if not url: st.error(...)` and otherwise a
call of `download_video_streamlit` or `download_audio_streamlit` (for a
string, Python `not url` holds exactly when the string is empty). -/
def startHandler (url mode quality codec : String) (bitrate_kbps : Nat)
    (save_path : String) : StartOutcome :=
  if url = "" then StartOutcome.emptyUrlError "Please provide a YouTube URL."
  else if mode = "Video" then StartOutcome.invokeVideo url (video_ydl_opts quality save_path)
  else StartOutcome.invokeAudio url (audio_ydl_opts codec bitrate_kbps save_path)

/-- The range of `Nat.digitChar`. -/
def digitRange : List Char := "0123456789abcdef*".data

/-- First alternative of the ceiling-constrained chain: best mp4 video
stream plus best m4a audio stream, separate streams to be merged. -/
def videoAlt1 (h : Nat) : String :=
  "bestvideo[ext=mp4][height<=" ++ toString h ++ "]+bestaudio[ext=m4a]"

/-- Second alternative: a single pre-muxed mp4 container under the ceiling. -/
def videoAlt2 (h : Nat) : String := "best[ext=mp4][height<=" ++ toString h ++ "]"

/-- Third alternative: best video and audio streams of any container under
the ceiling, separate streams to be merged. -/
def videoAlt3 (h : Nat) : String := "bestvideo[height<=" ++ toString h ++ "]+bestaudio"

/-- Fourth and final alternative: a best-effort single item, still
constrained by the height ceiling. -/
def videoAlt4 (h : Nat) : String := "best[height<=" ++ toString h ++ "]"

-- Helper lemmas

lemma hook_downloading_known (sinks : Sinks) (d : ProgressEvent) (t : Nat)
    (hst : d.status = some "downloading") (htot : effectiveTotal d = some t)
    (hpos : 0 < t) :
    hook sinks d =
      if sinks.statusFails then none
      else some ((if sinks.barFails then []
                  else [Effect.barProgress (fractionOf (d.downloaded_bytes.getD 0) t)]) ++
                 [Effect.statusMarkdown
                    (downloadingLine d (fractionOf (d.downloaded_bytes.getD 0) t))]) := by
  unfold hook
  rw [if_pos hst, htot]
  simp [hpos]

lemma hook_downloading_unknown (sinks : Sinks) (d : ProgressEvent)
    (hst : d.status = some "downloading")
    (htot : effectiveTotal d = none ∨ effectiveTotal d = some 0) :
    hook sinks d =
      if sinks.statusFails then none
      else some [Effect.statusMarkdown (byteCountLine d)] := by
  unfold hook
  rw [if_pos hst]
  rcases htot with h | h
  · rw [h]
  · rw [h]; simp

lemma fractionOf_nonneg (dl t : Nat) : 0 ≤ fractionOf dl t :=
  le_min zero_le_one (div_nonneg (Nat.cast_nonneg dl) (Nat.cast_nonneg t))

lemma fractionOf_le_one (dl t : Nat) : fractionOf dl t ≤ 1 := min_le_left _ _

lemma fractionOf_mono (t : Nat) {d1 d2 : Nat} (h : d1 ≤ d2) :
    fractionOf d1 t ≤ fractionOf d2 t := by
  apply min_le_min le_rfl
  rcases Nat.eq_zero_or_pos t with h0 | hpos
  · simp [h0]
  · exact (div_le_div_iff_of_pos_right (by exact_mod_cast hpos)).mpr (by exact_mod_cast h)



lemma digitChar_mem_range (m : Nat) : Nat.digitChar m ∈ digitRange := by
  rcases Nat.lt_or_ge m 16 with h | h
  · interval_cases m <;> decide
  · rw [Nat.digitChar]
    repeat rw [if_neg (by omega)]
    decide

lemma toDigitsCore_subset (fuel : Nat) :
    ∀ (n : Nat) (acc : List Char), (∀ c ∈ acc, c ∈ digitRange) →
      ∀ c ∈ Nat.toDigitsCore 10 fuel n acc, c ∈ digitRange := by
  induction fuel with
  | zero => intro n acc hacc c hc; rw [Nat.toDigitsCore] at hc; exact hacc c hc
  | succ fuel ih =>
      intro n acc hacc c hc
      rw [Nat.toDigitsCore] at hc
      by_cases h0 : n / 10 = 0
      · simp only [h0, if_pos] at hc
        rcases List.mem_cons.mp hc with h | h
        · exact h ▸ digitChar_mem_range _
        · exact hacc c h
      · simp only [h0, if_neg, if_false] at hc
        refine ih (n / 10) (Nat.digitChar (n % 10) :: acc) ?_ c hc
        intro x hx
        rcases List.mem_cons.mp hx with h | h
        · exact h ▸ digitChar_mem_range _
        · exact hacc x h

lemma toString_nat_data (n : Nat) : (toString n).data = Nat.toDigits 10 n := rfl

lemma mem_range_of_mem_toString {n : Nat} {c : Char} (h : c ∈ (toString n).data) :
    c ∈ digitRange := by
  rw [toString_nat_data, Nat.toDigits] at h
  exact toDigitsCore_subset _ _ _ (by intro x hx; cases hx) c h

lemma slash_not_mem_toString (n : Nat) : '/' ∉ (toString n).data := by
  intro h
  exact absurd (mem_range_of_mem_toString h) (by decide)

lemma plus_not_mem_toString (n : Nat) : '+' ∉ (toString n).data := by
  intro h
  exact absurd (mem_range_of_mem_toString h) (by decide)

lemma splitChar_of_not_mem {sep : Char} {l : List Char} (h : sep ∉ l) :
    splitChar sep l = [l] := by
  induction l with
  | nil => rfl
  | cons c cs ih =>
      have hc : c ≠ sep := fun hc => h (hc ▸ List.mem_cons_self c cs)
      have hcs : sep ∉ cs := fun hm => h (List.mem_cons_of_mem c hm)
      simp only [splitChar, if_neg hc, ih hcs, consFirst]

lemma splitChar_append_sep {sep : Char} {l1 : List Char} (l2 : List Char)
    (h : sep ∉ l1) :
    splitChar sep (l1 ++ sep :: l2) = l1 :: splitChar sep l2 := by
  induction l1 with
  | nil => simp [splitChar]
  | cons c cs ih =>
      have hc : c ≠ sep := fun hc => h (hc ▸ List.mem_cons_self c cs)
      have hcs : sep ∉ cs := fun hm => h (List.mem_cons_of_mem c hm)
      rw [List.cons_append]
      simp only [splitChar, if_neg hc, ih hcs, consFirst]

lemma string_data_inj {a b : String} (h : a.data = b.data) : a = b := by
  cases a; cases b; exact congrArg String.mk h

lemma string_mk_data (s : String) : String.mk s.data = s := by cases s; rfl

/-- A four-alternative fallback chain splits into its four alternatives. -/
lemma alternatives_four (a b c d : String)
    (ha : '/' ∉ a.data) (hb : '/' ∉ b.data) (hc : '/' ∉ c.data) (hd : '/' ∉ d.data) :
    alternatives (a ++ "/" ++ b ++ "/" ++ c ++ "/" ++ d) = [a, b, c, d] := by
  unfold alternatives
  have hdata : (a ++ "/" ++ b ++ "/" ++ c ++ "/" ++ d).data
      = a.data ++ '/' :: (b.data ++ '/' :: (c.data ++ '/' :: d.data)) := by
    simp [String.data_append]
  rw [hdata, splitChar_append_sep _ ha, splitChar_append_sep _ hb,
      splitChar_append_sep _ hc, splitChar_of_not_mem hd]
  simp [string_mk_data]

lemma not_mem_append3 {c : Char} {l1 l2 l3 : List Char}
    (h1 : c ∉ l1) (h2 : c ∉ l2) (h3 : c ∉ l3) : c ∉ l1 ++ l2 ++ l3 := by
  simp only [List.mem_append, not_or]
  exact ⟨⟨h1, h2⟩, h3⟩

lemma videoAlt1_data (h : Nat) :
    (videoAlt1 h).data = ("bestvideo[ext=mp4][height<=" : String).data ++
      (toString h).data ++ ("]+bestaudio[ext=m4a]" : String).data := by
  simp [videoAlt1, String.data_append]

lemma videoAlt2_data (h : Nat) :
    (videoAlt2 h).data = ("best[ext=mp4][height<=" : String).data ++
      (toString h).data ++ ("]" : String).data := by
  simp [videoAlt2, String.data_append]

lemma videoAlt3_data (h : Nat) :
    (videoAlt3 h).data = ("bestvideo[height<=" : String).data ++
      (toString h).data ++ ("]+bestaudio" : String).data := by
  simp [videoAlt3, String.data_append]

lemma videoAlt4_data (h : Nat) :
    (videoAlt4 h).data = ("best[height<=" : String).data ++
      (toString h).data ++ ("]" : String).data := by
  simp [videoAlt4, String.data_append]

-- Claims

/-- C1: for every progress event with phase `downloading` whose effective
total byte count is known and strictly positive, the hook computes the
fraction `min(1.0, downloaded/total)`, this fraction lies in `[0, 1]`, and
(with working sinks) the hook updates the progress bar to exactly that
fraction before rendering the status line. -/
theorem C1_downloading_fraction (d : ProgressEvent) (t : Nat)
    (hst : d.status = some "downloading") (htot : effectiveTotal d = some t)
    (hpos : 0 < t) :
    fractionOf (d.downloaded_bytes.getD 0) t
        = min 1 ((d.downloaded_bytes.getD 0 : ℚ) / (t : ℚ)) ∧
    0 ≤ fractionOf (d.downloaded_bytes.getD 0) t ∧
    fractionOf (d.downloaded_bytes.getD 0) t ≤ 1 ∧
    hook ⟨false, false⟩ d
      = some [Effect.barProgress (fractionOf (d.downloaded_bytes.getD 0) t),
              Effect.statusMarkdown
                (downloadingLine d (fractionOf (d.downloaded_bytes.getD 0) t))] := by
  refine ⟨rfl, fractionOf_nonneg _ _, fractionOf_le_one _ _, ?_⟩
  rw [hook_downloading_known ⟨false, false⟩ d t hst htot hpos]
  rfl

theorem C1_witness :
    fractionOf 50 100 = min 1 ((50 : ℚ) / (100 : ℚ)) ∧
    0 ≤ fractionOf 50 100 ∧ fractionOf 50 100 ≤ 1 ∧
    hook ⟨false, false⟩
        ⟨some "downloading", some 100, none, some 50, none, some 12, some "video.mp4"⟩
      = some [Effect.barProgress (fractionOf 50 100),
              Effect.statusMarkdown
                (downloadingLine
                  ⟨some "downloading", some 100, none, some 50, none, some 12, some "video.mp4"⟩
                  (fractionOf 50 100))] :=
  C1_downloading_fraction
    ⟨some "downloading", some 100, none, some 50, none, some 12, some "video.mp4"⟩
    100 rfl rfl (by decide)

/-- C2 counterexample: the claim that the hook swallows any failure of
both bound UI sinks is false.  The status placeholder calls are not
wrapped in `try/except` in the source, so a status-sink failure escapes
the hook: on a downloading event with a known total, a hook whose status
sink fails raises (modelled as `none`). -/
theorem C2_counterexample :
    hook ⟨false, true⟩ ⟨some "downloading", some 100, none, some 50, none, none, some "v"⟩
      = none := rfl

/-- C2 amended: failures of the fractional progress indicator are caught
and swallowed inside the hook (its `progress_bar.progress` calls are
wrapped in `try/except`), so the hook never raises as long as the
status-text sink does not fail; a status-text sink failure, by contrast,
is not caught. -/
theorem C2_amended (d : ProgressEvent) (barFails : Bool) :
    ∃ effs, hook ⟨barFails, false⟩ d = some effs := by
  unfold hook
  repeat' split
  all_goals first
    | exact ⟨_, rfl⟩
    | (rename_i hfail; exact absurd hfail (by simp [Sinks.statusFails]))

/-- C3 counterexample: the claim is false as stated.  Two downloading
events within one attempt whose total (2 then 100) and downloaded (1 then
2) byte counts are both strictly increasing, yet the fractions the hook
reports decrease: the first event reports 1/2 and the second 1/50. -/
theorem C3_counterexample :
    hook ⟨false, false⟩ ⟨some "downloading", some 2, none, some 1, none, none, some "a"⟩
      = some [Effect.barProgress (fractionOf 1 2),
              Effect.statusMarkdown
                (downloadingLine ⟨some "downloading", some 2, none, some 1, none, none, some "a"⟩
                  (fractionOf 1 2))] ∧
    hook ⟨false, false⟩ ⟨some "downloading", some 100, none, some 2, none, none, some "a"⟩
      = some [Effect.barProgress (fractionOf 2 100),
              Effect.statusMarkdown
                (downloadingLine ⟨some "downloading", some 100, none, some 2, none, none, some "a"⟩
                  (fractionOf 2 100))] ∧
    (1 : Nat) < 2 ∧ (2 : Nat) < 100 ∧ ¬ fractionOf 1 2 ≤ fractionOf 2 100 := by
  refine ⟨rfl, rfl, by decide, by decide, ?_⟩
  unfold fractionOf
  rw [min_def, min_def]
  norm_num

/-- C3 amended: within one attempt the total reported for a file is one
value `t`; for a sequence of downloading events with that same known
positive total and strictly increasing downloaded byte counts, the hook
reports each fraction, and the sequence of reported fractions is
non-decreasing. -/
theorem C3_amended (t : Nat) (ht : 0 < t) (l : List ProgressEvent)
    (hst : ∀ e ∈ l, e.status = some "downloading")
    (htot : ∀ e ∈ l, effectiveTotal e = some t)
    (hmono : l.Chain' (fun a b => a.downloaded_bytes.getD 0 < b.downloaded_bytes.getD 0)) :
    (∀ e ∈ l, hook ⟨false, false⟩ e
        = some [Effect.barProgress (fractionOf (e.downloaded_bytes.getD 0) t),
                Effect.statusMarkdown
                  (downloadingLine e (fractionOf (e.downloaded_bytes.getD 0) t))]) ∧
    (l.map (fun e => fractionOf (e.downloaded_bytes.getD 0) t)).Chain' (· ≤ ·) := by
  constructor
  · intro e he
    rw [hook_downloading_known ⟨false, false⟩ e t (hst e he) (htot e he) ht]
    rfl
  · rw [List.chain'_map]
    exact hmono.imp fun a b hab => fractionOf_mono t hab.le

theorem C3_amended_witness :
    (0 : Nat) < 100 ∧
    ((∀ e ∈ [(⟨some "downloading", some 100, none, some 10, none, none, some "a"⟩ : ProgressEvent),
             ⟨some "downloading", some 100, none, some 30, none, none, some "a"⟩],
        hook ⟨false, false⟩ e
          = some [Effect.barProgress (fractionOf (e.downloaded_bytes.getD 0) 100),
                  Effect.statusMarkdown
                    (downloadingLine e (fractionOf (e.downloaded_bytes.getD 0) 100))]) ∧
     (([(⟨some "downloading", some 100, none, some 10, none, none, some "a"⟩ : ProgressEvent),
        ⟨some "downloading", some 100, none, some 30, none, none, some "a"⟩].map
          (fun e => fractionOf (e.downloaded_bytes.getD 0) 100)).Chain' (· ≤ ·))) :=
  ⟨by decide,
   C3_amended 100 (by decide) _ (by decide) (by decide)
     (by simp [List.chain'_cons, List.chain'_singleton])⟩

/-- C4: for every quality label in the recognized set, the option mapper
derives exactly the numeric height ceiling of the label (none for best);
the selector built for best mentions no height constraint in any
alternative, and for each numeric label every alternative of the fallback
chain carries the matching height constraint — in particular every
alternative for 720p contains height<=720. -/
theorem C4_quality_height_ceilings :
    heightFor "best" = none ∧
    heightFor "2160p" = some 2160 ∧ heightFor "1440p" = some 1440 ∧
    heightFor "1080p" = some 1080 ∧ heightFor "720p" = some 720 ∧
    heightFor "480p" = some 480 ∧ heightFor "360p" = some 360 ∧
    (∀ a ∈ alternatives (videoFormatFor "best"), ¬ ("height<=".data <:+: a.data)) ∧
    (∀ a ∈ alternatives (videoFormatFor "2160p"), "height<=2160".data <:+: a.data) ∧
    (∀ a ∈ alternatives (videoFormatFor "1440p"), "height<=1440".data <:+: a.data) ∧
    (∀ a ∈ alternatives (videoFormatFor "1080p"), "height<=1080".data <:+: a.data) ∧
    (∀ a ∈ alternatives (videoFormatFor "720p"), "height<=720".data <:+: a.data) ∧
    (∀ a ∈ alternatives (videoFormatFor "480p"), "height<=480".data <:+: a.data) ∧
    (∀ a ∈ alternatives (videoFormatFor "360p"), "height<=360".data <:+: a.data) := by
  decide









/-- C5 counterexample: at ceiling 720 the first alternative of the built
chain merges separate video and audio streams (it contains a plus) rather
than being a pre-muxed container, and the final fallback alternative still
carries the height<=720 constraint rather than being unconstrained. -/
theorem C5_counterexample :
    alternatives (build_video_format (some 720))
      = ["bestvideo[ext=mp4][height<=720]+bestaudio[ext=m4a]",
         "best[ext=mp4][height<=720]",
         "bestvideo[height<=720]+bestaudio",
         "best[height<=720]"] ∧
    '+' ∈ ("bestvideo[ext=mp4][height<=720]+bestaudio[ext=m4a]" : String).data ∧
    "height<=720".data <:+: ("best[height<=720]" : String).data := by
  decide

/-- C5 amended: for every height ceiling the built selector is the
four-alternative fallback chain consisting of, in order: separate best
mp4 video and m4a audio streams to be muxed, a pre-muxed mp4 container at
or below the ceiling, separate best video and audio streams of any
container to be muxed, and finally a ceiling-constrained (not
unconstrained) best-effort fallback.  The first and third alternatives
merge two streams (they contain a plus), the second and fourth are single
containers, and the final alternative carries the height ceiling. -/
theorem C5_amended (h : Nat) :
    build_video_format (some h)
      = videoAlt1 h ++ "/" ++ videoAlt2 h ++ "/" ++ videoAlt3 h ++ "/" ++ videoAlt4 h ∧
    alternatives (build_video_format (some h))
      = [videoAlt1 h, videoAlt2 h, videoAlt3 h, videoAlt4 h] ∧
    '+' ∈ (videoAlt1 h).data ∧ '+' ∈ (videoAlt3 h).data ∧
    '+' ∉ (videoAlt2 h).data ∧ '+' ∉ (videoAlt4 h).data ∧
    "height<=".data ++ (toString h).data <:+: (videoAlt4 h).data := by
  have e1 : ("]+bestaudio[ext=m4a]/" : String).data
      = ("]+bestaudio[ext=m4a]" : String).data ++ ['/'] := by decide
  have e2 : ("]/" : String).data = ("]" : String).data ++ ['/'] := by decide
  have e3 : ("]+bestaudio/" : String).data
      = ("]+bestaudio" : String).data ++ ['/'] := by decide
  have heq : build_video_format (some h)
      = videoAlt1 h ++ "/" ++ videoAlt2 h ++ "/" ++ videoAlt3 h ++ "/" ++ videoAlt4 h := by
    apply string_data_inj
    simp [build_video_format, videoAlt1, videoAlt2, videoAlt3, videoAlt4,
          String.data_append, e1, e2, e3, List.append_assoc]
  have hs1 : '/' ∉ (videoAlt1 h).data := by
    rw [videoAlt1_data]
    exact not_mem_append3 (by decide) (slash_not_mem_toString h) (by decide)
  have hs2 : '/' ∉ (videoAlt2 h).data := by
    rw [videoAlt2_data]
    exact not_mem_append3 (by decide) (slash_not_mem_toString h) (by decide)
  have hs3 : '/' ∉ (videoAlt3 h).data := by
    rw [videoAlt3_data]
    exact not_mem_append3 (by decide) (slash_not_mem_toString h) (by decide)
  have hs4 : '/' ∉ (videoAlt4 h).data := by
    rw [videoAlt4_data]
    exact not_mem_append3 (by decide) (slash_not_mem_toString h) (by decide)
  refine ⟨heq, ?_, ?_, ?_, ?_, ?_, ?_⟩
  · rw [heq]
    exact alternatives_four _ _ _ _ hs1 hs2 hs3 hs4
  · rw [videoAlt1_data]
    exact List.mem_append.mpr (Or.inr (by decide))
  · rw [videoAlt3_data]
    exact List.mem_append.mpr (Or.inr (by decide))
  · rw [videoAlt2_data]
    exact not_mem_append3 (by decide) (plus_not_mem_toString h) (by decide)
  · rw [videoAlt4_data]
    exact not_mem_append3 (by decide) (plus_not_mem_toString h) (by decide)
  · refine ⟨("best[" : String).data, ("]" : String).data, ?_⟩
    rw [videoAlt4_data]
    have eb : ("best[height<=" : String).data
        = ("best[" : String).data ++ ("height<=" : String).data := by decide
    simp [eb, List.append_assoc]

/-- C6: a quality label whose lowercased form is not a key of the heights
dict maps to no ceiling, so the option mapper silently produces the same
unconstrained best fallback chain as the label best, rather than failing. -/
theorem C6_unrecognized_label (label : String)
    (h : heights.lookup (pyLower label) = none) :
    videoFormatFor label = videoFormatFor "best" ∧
    videoFormatFor label = build_video_format none := by
  have h1 : videoFormatFor label = build_video_format none := by
    unfold videoFormatFor heightFor heightsGet
    rw [h]
    rfl
  have h2 : videoFormatFor "best" = build_video_format none := by decide
  exact ⟨h1.trans h2.symm, h1⟩

theorem C6_witness :
    heights.lookup (pyLower "Potato") = none ∧
    (videoFormatFor "Potato" = videoFormatFor "best" ∧
     videoFormatFor "Potato" = build_video_format none) :=
  ⟨by decide, C6_unrecognized_label "Potato" (by decide)⟩

/-- C7: for every supported audio codec and bitrate pair, the
post-processor spec built by the audio download function carries the
requested codec verbatim and the decimal string of the requested bitrate
verbatim, with no rounding or mutation. -/
theorem C7_audio_postprocessor (codec : String) (bitrate_kbps : Nat) (save_path : String)
    (_hc : codec ∈ ["mp3", "m4a"]) (_hb : bitrate_kbps ∈ [128, 192, 320]) :
    (audio_ydl_opts codec bitrate_kbps save_path).postprocessors
      = [⟨"FFmpegExtractAudio", codec, toString bitrate_kbps⟩] := rfl

theorem C7_witness :
    "mp3" ∈ ["mp3", "m4a"] ∧ 192 ∈ [128, 192, 320] ∧
    (audio_ydl_opts "mp3" 192 "downloads").postprocessors
      = [⟨"FFmpegExtractAudio", "mp3", "192"⟩] :=
  ⟨by decide, by decide, C7_audio_postprocessor "mp3" 192 "downloads" (by decide) (by decide)⟩

/-- C8: for every audio request, regardless of codec and bitrate, the
format selector passed to the external tool is the fixed selector
bestaudio/best, whose primary alternative requests the best available
audio-only stream. -/
theorem C8_audio_format (codec : String) (bitrate_kbps : Nat) (save_path : String) :
    (audio_ydl_opts codec bitrate_kbps save_path).format = "bestaudio/best" ∧
    alternatives "bestaudio/best" = ["bestaudio", "best"] :=
  ⟨rfl, by decide⟩

/-- C9: on a downloading event whose exact total and estimated total are
both missing or zero, the hook computes no fraction, never invokes the
fractional progress-bar update, and renders only the byte-count status
line (raising if and only if the status sink fails). -/
theorem C9_unknown_total (d : ProgressEvent) (sinks : Sinks)
    (hst : d.status = some "downloading")
    (htb : d.total_bytes = none ∨ d.total_bytes = some 0)
    (hest : d.total_bytes_estimate = none ∨ d.total_bytes_estimate = some 0) :
    hook sinks d = (if sinks.statusFails then none
                    else some [Effect.statusMarkdown (byteCountLine d)]) ∧
    ∀ effs, hook sinks d = some effs → ∀ q, Effect.barProgress q ∉ effs := by
  have htot : effectiveTotal d = none ∨ effectiveTotal d = some 0 := by
    unfold effectiveTotal
    rcases htb with h | h <;> rw [h]
    · exact hest
    · simpa using hest
  have heq := hook_downloading_unknown sinks d hst htot
  refine ⟨heq, ?_⟩
  intro effs heffs q hq
  rw [heq] at heffs
  by_cases hf : sinks.statusFails
  · simp [hf] at heffs
  · rw [if_neg hf] at heffs
    cases Option.some.inj heffs
    simp at hq

theorem C9_witness :
    (⟨some "downloading", none, some 0, some 7, none, none, some "f.mp4"⟩ :
        ProgressEvent).total_bytes = none ∧
    (⟨some "downloading", none, some 0, some 7, none, none, some "f.mp4"⟩ :
        ProgressEvent).total_bytes_estimate = some 0 ∧
    (hook ⟨false, false⟩ ⟨some "downloading", none, some 0, some 7, none, none, some "f.mp4"⟩
       = (if (⟨false, false⟩ : Sinks).statusFails then none
          else some [Effect.statusMarkdown
            (byteCountLine ⟨some "downloading", none, some 0, some 7, none, none, some "f.mp4"⟩)]) ∧
     ∀ effs, hook ⟨false, false⟩
         ⟨some "downloading", none, some 0, some 7, none, none, some "f.mp4"⟩ = some effs →
       ∀ q, Effect.barProgress q ∉ effs) :=
  ⟨rfl, rfl,
   C9_unknown_total ⟨some "downloading", none, some 0, some 7, none, none, some "f.mp4"⟩
     ⟨false, false⟩ rfl (Or.inl rfl) (Or.inr rfl)⟩

/-- C10: an attempt started with an empty URL never reaches the external
tool: the start handler yields the invalid-input outcome with the error
message shown to the user, and in particular neither download function is
invoked. -/
theorem C10_empty_url (url mode quality codec : String) (bitrate_kbps : Nat)
    (save_path : String) (h : url = "") :
    startHandler url mode quality codec bitrate_kbps save_path
      = StartOutcome.emptyUrlError "Please provide a YouTube URL." ∧
    (∀ u opts, startHandler url mode quality codec bitrate_kbps save_path
        ≠ StartOutcome.invokeVideo u opts) ∧
    (∀ u opts, startHandler url mode quality codec bitrate_kbps save_path
        ≠ StartOutcome.invokeAudio u opts) := by
  have heq : startHandler url mode quality codec bitrate_kbps save_path
      = StartOutcome.emptyUrlError "Please provide a YouTube URL." := by
    unfold startHandler
    rw [if_pos h]
  refine ⟨heq, ?_, ?_⟩
  · intro u opts hco
    rw [heq] at hco
    exact StartOutcome.noConfusion hco
  · intro u opts hco
    rw [heq] at hco
    exact StartOutcome.noConfusion hco

theorem C10_witness :
    ("" : String) = "" ∧
    (startHandler "" "Video" "720p" "mp3" 192 "downloads"
       = StartOutcome.emptyUrlError "Please provide a YouTube URL." ∧
     (∀ u opts, startHandler "" "Video" "720p" "mp3" 192 "downloads"
         ≠ StartOutcome.invokeVideo u opts) ∧
     (∀ u opts, startHandler "" "Video" "720p" "mp3" 192 "downloads"
         ≠ StartOutcome.invokeAudio u opts)) :=
  ⟨rfl, C10_empty_url "" "Video" "720p" "mp3" 192 "downloads" rfl⟩

end YtDl
